import Mathlib

/-!
Verification of the interactive execution session engine and subprocess
facility in coconut/command/util.py: the interpret eval-or-exec decider,
the Runner session (vars dict, transcript, injected exit handler,
handling_errors isolation), and the external-command machinery
(call_output and its caller).

Python state is passed explicitly: the environment is an association list
standing for the vars dict, printed stdout lines and stderr diagnostics
are lists of strings, and the injected exit handler is modelled by
recording the argument of every call made to it.
-/

namespace Coconut

/-- Python runtime values that can appear in a session environment. -/
inductive Value where
  | none
  | int (i : Int)
  | str (s : String)
  | builtin (name : String)
deriving DecidableEq

/-- Python exceptions relevant to the session engine: the error eval raises
on a fragment that is not a standalone expression, the cooperative
termination signal with its carried status code, and any other failure. -/
inductive PyExn where
  | synErr
  | systemExit (code : Option Int)
  | err (msg : String)
deriving DecidableEq

/-- An environment: the live namespace, a Python dict from names to values,
modelled as an association list with unique keys. -/
abbrev Env := List (String × Value)

/-- Dict lookup. -/
def envLookup : Env → String → Option Value
  | [], _ => Option.none
  | (k, v) :: rest, x => if k = x then some v else envLookup rest x

/-- Dict item assignment: overwrite the binding of x if present, else add it. -/
def envSet : Env → String → Value → Env
  | [], x, v => [(x, v)]
  | (k, w) :: rest, x, v => if k = x then (k, v) :: rest else (k, w) :: envSet rest x v

/-- The set of bound names of an environment, in insertion order. -/
def envKeys (env : Env) : List String := env.map Prod.fst

/-- Python dict.update: set every binding of u into d, in order. -/
def envUpdate (d u : Env) : Env := u.foldl (fun acc kv => envSet acc kv.1 kv.2) d

/-- Expressions appearing inside fragments. -/
inductive Expr where
  | lit (v : Value)
  | add (a b : Expr)
  | var (x : String)
deriving DecidableEq

/-- Evaluate an expression against an environment. -/
def evalExpr : Expr → Env → Except PyExn Value
  | .lit v, _ => .ok v
  | .add a b, env =>
      match evalExpr a env, evalExpr b env with
      | .ok (.int m), .ok (.int n) => .ok (.int (m + n))
      | .ok _, .ok _ => .error (.err "TypeError")
      | .error e, _ => .error e
      | _, .error e => .error e
  | .var x, env =>
      match envLookup env x with
      | some v => .ok v
      | Option.none => .error (.err "NameError")

/-- One fragment of source text, represented by its Python semantics:
a standalone expression, an assignment statement (eval raises its
not-an-expression error on it), a print call (eval accepts it, prints, and
yields None), or an expression raising an exception at runtime. -/
inductive Frag where
  | exprF (e : Expr)
  | assignF (x : String) (e : Expr)
  | printF (msg : String)
  | raiseF (ex : PyExn)
deriving DecidableEq

/-- Python eval of one fragment as a single expression: the resulting value
or exception, the environment, and the stdout lines after the call. -/
def pyEval : Frag → Env → List String → Except PyExn Value × Env × List String
  | .exprF e, env, out =>
      match evalExpr e env with
      | .ok v => (.ok v, env, out)
      | .error ex => (.error ex, env, out)
  | .assignF _ _, env, out => (.error .synErr, env, out)
  | .printF msg, env, out => (.ok Value.none, env, out ++ [msg])
  | .raiseF ex, env, out => (.error ex, env, out)

/-- Python exec of one fragment as a statement sequence. -/
def pyExec : Frag → Env → List String → Except PyExn Unit × Env × List String
  | .exprF e, env, out =>
      match evalExpr e env with
      | .ok _ => (.ok (), env, out)
      | .error ex => (.error ex, env, out)
  | .assignF x e, env, out =>
      match evalExpr e env with
      | .ok v => (.ok (), envSet env x v, out)
      | .error ex => (.error ex, env, out)
  | .printF msg, env, out => (.ok (), env, out ++ [msg])
  | .raiseF ex, env, out => (.error ex, env, out)

/-- exec_func from the source with loc_vars left at its None default:
a plain wrapper around exec. -/
def exec_func (code : Frag) (glob_vars : Env) (out : List String) :
    Except PyExn Unit × Env × List String :=
  pyExec code glob_vars out

/-- Python ascii() of a value, as printed by the interpreter for non-None
results. -/
def pyAscii : Value → String
  | Value.none => "None"
  | .int i => toString i
  | .str s => "\x27" ++ s ++ "\x27"
  | .builtin n => "<built-in function " ++ n ++ ">"

/-- interpret from the source: try to eval the code; if eval raises its
not-an-expression error, exec the code outside of the exception context;
otherwise print the ascii of a non-None result and return without
executing the code as statements. -/
def interpret (code : Frag) (in_vars : Env) (out : List String) :
    Except PyExn Unit × Env × List String :=
  match pyEval code in_vars out with
  | (.error .synErr, env1, out1) => pyExec code env1 out1
  | (.error e, env1, out1) => (.error e, env1, out1)
  | (.ok v, env1, out1) =>
      if v = Value.none then (.ok (), env1, out1)
      else (.ok (), env1, out1 ++ [pyAscii v])

/-- Modelled from the spec: the path canonicalization collaborator fixpath
(defined in the missing coconut.constants module) is an out-of-scope helper;
its exact behavior is irrelevant here, so it is modelled as the identity. -/
def fixpath (path : String) : String := path

/-- Observable state of a Runner session: its vars dict, the stdout lines
printed so far, the stderr diagnostics printed so far, the stored transcript
(none when recording is disabled), and the arguments of every call made so
far to the injected exit handler. -/
structure RunnerState where
  vars : Env
  out : List String
  errOut : List String
  stored : Option (List String)
  exitCalls : List (Option Int)
deriving DecidableEq

/-- The diagnostic that handling_errors prints for an exception: a traceback
with the innermost num_added_tb_layers frames stripped.  Frame structure is
abstracted; only which exception is rendered matters here. -/
def traceback_msg : PyExn → String
  | .synErr => "SyntaxError"
  | .systemExit _ => "SystemExit"
  | .err m => m

namespace Runner

/-- Runner.build_vars: the initial vars dict, seeded with the module
metadata, the reload builtin, optionally a file binding for the given path,
and every reserved identifier bound to None for auto-completion purposes.
The reserved identifier list lives in the missing coconut.constants module,
so it is a parameter. -/
def build_vars (reserved : List String) (path : Option String) : Env :=
  let init_vars : Env :=
    [("__name__", Value.str "__main__"),
     ("__package__", Value.none),
     ("reload", Value.builtin "reload")]
  let init_vars :=
    match path with
    | some p => envSet init_vars "__file__" (Value.str (fixpath p))
    | Option.none => init_vars
  reserved.foldl (fun acc v => envSet acc v Value.none) init_vars

/-- Runner.store: append a line to the transcript when recording is on. -/
def store (line : String) (s : RunnerState) : RunnerState :=
  { s with stored := s.stored.map (fun l => l ++ [line]) }

/-- Runner.handling_errors: run the body; forward a cooperative-termination
signal's code to the injected exit handler; print a truncated traceback for
any other exception and, only when all_errors_exit is set, additionally call
the exit handler with status 1.  The first component is the value the
wrapped block produced, or none when an exception aborted it. -/
def handling_errors {α : Type} (all_errors_exit : Bool)
    (body : RunnerState → Except PyExn α × RunnerState) (s : RunnerState) :
    Option α × RunnerState :=
  match body s with
  | (.ok a, s1) => (some a, s1)
  | (.error (.systemExit c), s1) =>
      (Option.none, { s1 with exitCalls := s1.exitCalls ++ [c] })
  | (.error e, s1) =>
      let s2 := { s1 with errOut := s1.errOut ++ [traceback_msg e] }
      (Option.none,
        if all_errors_exit then { s2 with exitCalls := s2.exitCalls ++ [some 1] } else s2)

/-- The run_func Runner.run selects from use_eval: interpret when None,
plain eval when True, exec_func when False.  interpret and exec_func return
Python None; eval returns the evaluated value. -/
def run_func_of (use_eval : Option Bool) (code : Frag) (env : Env)
    (out : List String) : Except PyExn (Option Value) × Env × List String :=
  match use_eval with
  | Option.none =>
      match interpret code env out with
      | (.ok _, env1, out1) => (.ok Option.none, env1, out1)
      | (.error e, env1, out1) => (.error e, env1, out1)
  | some true =>
      match pyEval code env out with
      | (.ok v, env1, out1) => (.ok (some v), env1, out1)
      | (.error e, env1, out1) => (.error e, env1, out1)
  | some false =>
      match exec_func code env out with
      | (.ok _, env1, out1) => (.ok Option.none, env1, out1)
      | (.error e, env1, out1) => (.error e, env1, out1)

/-- Runner.run: under handling_errors, run the code with the selected
run_func against the session vars, or, when a path is given, against a
fresh vars dict built for that path whose bindings are merged back into the
session vars on every exit path (the try/finally); store the source line on
success when requested.  src is the fragment's source text, code its
semantics. -/
def run (reserved : List String) (src : String) (code : Frag)
    (use_eval : Option Bool) (path : Option String)
    (all_errors_exit : Bool) (store : Bool) (s : RunnerState) :
    Option (Option Value) × RunnerState :=
  handling_errors all_errors_exit
    (fun s0 =>
      match path with
      | Option.none =>
          match run_func_of use_eval code s0.vars s0.out with
          | (.ok v, env1, out1) =>
              let s1 := { s0 with vars := env1, out := out1 }
              (.ok v, if store then Runner.store src s1 else s1)
          | (.error e, env1, out1) =>
              (.error e, { s0 with vars := env1, out := out1 })
      | some p =>
          let use_vars := build_vars reserved (some p)
          match run_func_of use_eval code use_vars s0.out with
          | (.ok v, env1, out1) =>
              let s1 := { s0 with vars := envUpdate s0.vars env1, out := out1 }
              (.ok v, if store then Runner.store src s1 else s1)
          | (.error e, env1, out1) =>
              (.error e, { s0 with vars := envUpdate s0.vars env1, out := out1 }))
    s

/-- Runner.was_run_code: the replay transcript.  With get_all, first
destructively collapse the stored lines into their single newline join,
then return the last stored entry.  (With get_all false on an empty
transcript the source raises IndexError; that path is not exercised here
and is modelled with an empty default.) -/
def was_run_code (get_all : Bool) (s : RunnerState) : String × RunnerState :=
  match s.stored with
  | Option.none => ("", s)
  | some l =>
      if get_all then
        let j := String.intercalate "\n" l
        (j, { s with stored := some [j] })
      else
        (l.getLastD "", s)

/-- Runner.__init__ with comp left at None: fresh vars for the optional
path, empty output, transcript present exactly when store is set, no exit
calls yet. -/
def init (reserved : List String) (store : Bool) (path : Option String) :
    RunnerState :=
  { vars := build_vars reserved path
    out := []
    errOut := []
    stored := if store then some [] else Option.none
    exitCalls := [] }

end Runner

/-- Modelled from the spec: the reserved sentinel exit code for OS-level
launch failures (oserror_retcode, defined in the missing coconut.constants
module).  Only its identity matters to the claims, not its value. -/
def oserror_retcode : Int := -1

/-- One external process: for each communicate round, the decoded stdout
chunk, the decoded stderr chunk (empty string when the raw bytes were empty),
and what poll() returns right after that round (none while still running). -/
structure Proc where
  rounds : List (String × String × Option Int)
deriving DecidableEq

/-- The collaborators of the command executor: whether shutil.which exists,
its resolution behavior, and process spawning, where Option.none models the
OS-level launch error (OSError) for a nonexistent executable. -/
structure World where
  whichAvailable : Bool
  which : String → Option String
  spawn : List String → Option Proc

/-- The communicate/poll loop of call_output: each iteration appends the
round's decoded stdout and stderr chunks and then polls; the loop stops when
poll yields an exit code.  An Option.none exit code in the result means the
rounds ran out with the process still live (the loop would still be
running). -/
def call_output :
    List (String × String × Option Int) → List String × List String × Option Int
  | [] => ([], [], Option.none)
  | (o, e, p) :: rest =>
      match p with
      | some rc => ([o], [e], some rc)
      | Option.none =>
          let (outs, errs, rc) := call_output rest
          (o :: outs, e :: errs, rc)

/-- The in-place first-element resolution at the top of the command
executor: when shutil.which is available, cmd[0] becomes the resolved path,
or stays as it was when resolution finds nothing. -/
def resolve_cmd (w : World) : List String → List String
  | [] => []
  | c :: rest => if w.whichAvailable then ((w.which c).getD c) :: rest else c :: rest

/-- The errors the command executor can raise: CalledProcessError with its
return code, command, and optional captured output, or the internal
assertion rejecting an empty command list. -/
inductive CmdErr where
  | calledProcessError (retcode : Int) (cmd : List String) (output : Option String)
  | internalAssertFail
deriving DecidableEq

/-- What the command executor returns: an exit code (streaming mode) or the
captured output text (capturing mode). -/
inductive CmdRet where
  | code (n : Int)
  | output (s : String)
deriving DecidableEq

/-- The command executor from the source.  Asserts the command list is
non-empty, resolves its first element in place, then dispatches: with
show_output and raise_errs, check_call (raises CalledProcessError on
non-zero exit); with show_output alone, call (returns the exit code);
otherwise call_output, joining the stdout chunks then the stderr chunks and
raising CalledProcessError carrying that output only when the exit code is
non-zero and raise_errs is set.  A launch error is caught: with raise_errs
it becomes CalledProcessError with the reserved sentinel code, else the
sentinel code (streaming) or the empty string (capturing).  The first
component is the caller's command list after the call; a second component
of Option.none models a process that never terminates.  (The source calls
this function run_cmd; that name is a reserved command token under Mathlib,
so the closest name Lean allows is used.) -/
def runCmd (w : World) (cmd0 : List String) (show_output raise_errs : Bool) :
    List String × Option (Except CmdErr CmdRet) :=
  match cmd0 with
  | [] => (cmd0, some (.error .internalAssertFail))
  | c :: rest =>
      let cmd := resolve_cmd w (c :: rest)
      match w.spawn cmd with
      | Option.none =>
          if raise_errs then
            (cmd, some (.error (.calledProcessError oserror_retcode cmd Option.none)))
          else if show_output then
            (cmd, some (.ok (.code oserror_retcode)))
          else
            (cmd, some (.ok (.output "")))
      | some p =>
          match call_output p.rounds with
          | (outs, errs, some rc) =>
              if show_output && raise_errs then
                if rc = 0 then (cmd, some (.ok (.code 0)))
                else (cmd, some (.error (.calledProcessError rc cmd Option.none)))
              else if show_output then
                (cmd, some (.ok (.code rc)))
              else
                let output := String.join (outs ++ errs)
                if rc != 0 && raise_errs then
                  (cmd, some (.error (.calledProcessError rc cmd (some output))))
                else
                  (cmd, some (.ok (.output output)))
          | (_, _, Option.none) => (cmd, Option.none)

/-- The rounds describe a process that runs to completion with exit code rc:
poll stays none before the last round and yields rc at the last round. -/
def roundsEndWith : List (String × String × Option Int) → Int → Bool
  | [], _ => false
  | [(_, _, some k)], rc => k == rc
  | [(_, _, Option.none)], _ => false
  | (_, _, Option.none) :: r :: rest, rc => roundsEndWith (r :: rest) rc
  | (_, _, some _) :: _ :: _, _ => false

/-! ## Helper lemmas -/

/-- Setting a binding makes it the one lookup finds. -/
theorem envLookup_envSet (env : Env) (x : String) (v : Value) :
    envLookup (envSet env x v) x = some v := by
  induction env with
  | nil => simp [envSet, envLookup]
  | cons kv rest ih =>
      obtain ⟨k, w⟩ := kv
      by_cases h : k = x
      · simp [envSet, envLookup, h]
      · simp [envSet, envLookup, h, ih]

/-- The fragment whose source text is the expression 2 + 2. -/
def frag_two_plus_two : Frag := .exprF (.add (.lit (.int 2)) (.lit (.int 2)))

/-- The fragment whose source text is the assignment of 2 + 2 to x. -/
def frag_assign_x : Frag := .assignF "x" (.add (.lit (.int 2)) (.lit (.int 2)))

/-! ## Claims -/

/-- C1 counterexample: the print fragment evaluates successfully to None
(after printing once), yet interpret does not then execute it as a
statement sequence against the environment left by evaluation — doing so
would print a second time.  interpret instead returns immediately. -/
theorem C1_counterexample :
    pyEval (.printF "hi") [] [] = (.ok Value.none, [], ["hi"])
    ∧ interpret (.printF "hi") [] [] = (.ok (), [], ["hi"])
    ∧ interpret (.printF "hi") [] [] ≠ pyExec (.printF "hi") [] ["hi"] := by
  refine ⟨rfl, rfl, ?_⟩
  simp [interpret, pyEval, pyExec]

/-- C1 amended: for every fragment whose evaluation as a single expression
succeeds and yields the no-value sentinel None, interpret returns at once
with the state evaluation produced, printing nothing further and never
executing the fragment as a statement sequence; the fall-through to exec
happens only when evaluation raises the not-an-expression error. -/
theorem C1_eval_none_returns (code : Frag) (env env1 : Env)
    (out out1 : List String)
    (h : pyEval code env out = (.ok Value.none, env1, out1)) :
    interpret code env out = (.ok (), env1, out1) := by
  simp [interpret, h]

/-- Witness for C1 amended at the concrete print fragment. -/
theorem C1_eval_none_returns_witness :
    pyEval (.printF "hello") [] [] = (.ok Value.none, [], ["hello"])
    ∧ interpret (.printF "hello") [] [] = (.ok (), [], ["hello"]) :=
  ⟨rfl, C1_eval_none_returns (.printF "hello") [] [] [] ["hello"] rfl⟩

/-- C2: against a freshly built session environment, running 2 + 2 prints 4
and leaves the environment's bound-name set unchanged, while running
x = 2 + 2 prints nothing and leaves x bound to 4 in the environment. -/
theorem C2_fresh_session_runs (reserved : List String) :
    (Runner.run reserved "2 + 2" frag_two_plus_two
        Option.none Option.none false true
        (Runner.init reserved true Option.none)).2.out = ["4"]
    ∧ envKeys (Runner.run reserved "2 + 2" frag_two_plus_two
        Option.none Option.none false true
        (Runner.init reserved true Option.none)).2.vars
      = envKeys (Runner.init reserved true Option.none).vars
    ∧ (Runner.run reserved "x = 2 + 2" frag_assign_x
        Option.none Option.none false true
        (Runner.init reserved true Option.none)).2.out = []
    ∧ envLookup (Runner.run reserved "x = 2 + 2" frag_assign_x
        Option.none Option.none false true
        (Runner.init reserved true Option.none)).2.vars "x" = some (.int 4) := by
  refine ⟨?_, ?_, ?_, ?_⟩ <;>
    (simp [Runner.run, Runner.handling_errors, Runner.run_func_of, interpret,
      pyEval, pyExec, evalExpr, pyAscii, Runner.store, Runner.init,
      frag_two_plus_two, frag_assign_x, envLookup_envSet]
     try rfl)

/-- A wrapped action that raises an unexpected runtime failure. -/
def bodyBoom : RunnerState → Except PyExn Unit × RunnerState :=
  fun s => (.error (.err "boom"), s)

/-- A wrapped action that completes without raising. -/
def bodyOk : RunnerState → Except PyExn Unit × RunnerState :=
  fun s => (.ok (), s)

/-- A wrapped action that raises the cooperative-termination signal. -/
def bodySysExit (c : Option Int) : RunnerState → Except PyExn Unit × RunnerState :=
  fun s => (.error (.systemExit c), s)

/-- C3: when the wrapped action raises any non-cooperative-termination
failure, handling_errors with all_errors_exit false returns normally with
only the truncated-traceback diagnostic added — the exception does not
escape its scope and the exit handler is not called — and a subsequent
unrelated run on the same session whose fragment executes cleanly completes
normally, returning its value. -/
theorem C3_isolation_survives {α : Type}
    (body : RunnerState → Except PyExn α × RunnerState)
    (s s1 : RunnerState) (e : PyExn)
    (hbody : body s = (.error e, s1))
    (hnse : ∀ c, e ≠ PyExn.systemExit c)
    (reserved : List String) (src2 : String) (code2 : Frag)
    (ue2 : Option Bool) (st2 : Bool) (v2 : Option Value)
    (env2 : Env) (out2 : List String)
    (hrun2 : Runner.run_func_of ue2 code2
        (Runner.handling_errors false body s).2.vars
        (Runner.handling_errors false body s).2.out = (.ok v2, env2, out2)) :
    Runner.handling_errors false body s
      = (Option.none, { s1 with errOut := s1.errOut ++ [traceback_msg e] })
    ∧ (Runner.run reserved src2 code2 ue2 Option.none false st2
        (Runner.handling_errors false body s).2).1 = some v2 := by
  have h1 : Runner.handling_errors false body s
      = (Option.none, { s1 with errOut := s1.errOut ++ [traceback_msg e] }) := by
    unfold Runner.handling_errors
    rw [hbody]
    cases e with
    | synErr => rfl
    | systemExit c => exact absurd rfl (hnse c)
    | err m => rfl
  refine ⟨h1, ?_⟩
  have h2 : ∀ t : RunnerState,
      Runner.run_func_of ue2 code2 t.vars t.out = (.ok v2, env2, out2) →
      (Runner.run reserved src2 code2 ue2 Option.none false st2 t).1 = some v2 := by
    intro t ht
    simp only [Runner.run, Runner.handling_errors]
    rw [ht]
  exact h2 _ hrun2

/-- Witness for C3 at a concrete failing action and a concrete follow-up
fragment. -/
theorem C3_isolation_survives_witness :
    Runner.handling_errors false bodyBoom (Runner.init [] true Option.none)
      = (Option.none, { Runner.init [] true Option.none with
          errOut := (Runner.init [] true Option.none).errOut
            ++ [traceback_msg (.err "boom")] })
    ∧ (Runner.run [] "2 + 2" frag_two_plus_two Option.none Option.none false true
        (Runner.handling_errors false bodyBoom (Runner.init [] true Option.none)).2).1
      = some Option.none :=
  C3_isolation_survives bodyBoom (Runner.init [] true Option.none)
    (Runner.init [] true Option.none) (.err "boom") rfl
    (fun _ h => nomatch h)
    [] "2 + 2" frag_two_plus_two Option.none true Option.none
    (Runner.build_vars [] Option.none) ["4"] rfl

/-- C4: handling_errors with all_errors_exit true calls the injected exit
handler exactly once, with the non-zero status 1, when the wrapped action
raises an unexpected (non-cooperative-termination) failure, and calls it
zero times when the wrapped action completes without raising. -/
theorem C4_escalation (α : Type)
    (body : RunnerState → Except PyExn α × RunnerState) (s : RunnerState) :
    (∀ e s1, body s = (.error e, s1) → (∀ c, e ≠ PyExn.systemExit c) →
      (Runner.handling_errors true body s).2.exitCalls = s1.exitCalls ++ [some 1]
        ∧ (1 : Int) ≠ 0)
    ∧ (∀ a s1, body s = (.ok a, s1) →
      (Runner.handling_errors true body s).2.exitCalls = s1.exitCalls) := by
  constructor
  · intro e s1 hbody hnse
    refine ⟨?_, by decide⟩
    unfold Runner.handling_errors
    rw [hbody]
    cases e with
    | synErr => rfl
    | systemExit c => exact absurd rfl (hnse c)
    | err m => rfl
  · intro a s1 hbody
    unfold Runner.handling_errors
    rw [hbody]

/-- Witness for C4 at a concrete failing action and a concrete succeeding
action. -/
theorem C4_escalation_witness :
    (Runner.handling_errors true bodyBoom (Runner.init [] true Option.none)).2.exitCalls
      = (Runner.init [] true Option.none).exitCalls ++ [some 1]
    ∧ (Runner.handling_errors true bodyOk (Runner.init [] true Option.none)).2.exitCalls
      = (Runner.init [] true Option.none).exitCalls :=
  ⟨((C4_escalation Unit bodyBoom (Runner.init [] true Option.none)).1
      (.err "boom") (Runner.init [] true Option.none) rfl (fun _ h => nomatch h)).1,
   (C4_escalation Unit bodyOk (Runner.init [] true Option.none)).2
      () (Runner.init [] true Option.none) rfl⟩

/-- C5: when the wrapped action raises the cooperative-termination signal
carrying status code c, handling_errors forwards exactly c to the injected
exit handler in a single invocation, with no diagnostic printed and no
second invocation, whatever all_errors_exit is: the resulting state differs
from the action's only by the one recorded exit call. -/
theorem C5_cooperative_termination {α : Type} (all_errors_exit : Bool)
    (body : RunnerState → Except PyExn α × RunnerState)
    (s s1 : RunnerState) (c : Option Int)
    (hbody : body s = (.error (.systemExit c), s1)) :
    Runner.handling_errors all_errors_exit body s
      = (Option.none, { s1 with exitCalls := s1.exitCalls ++ [c] }) := by
  unfold Runner.handling_errors
  rw [hbody]

/-- Witness for C5 at a concrete cooperative-termination action with status
code 7, under escalation. -/
theorem C5_cooperative_termination_witness :
    Runner.handling_errors true (bodySysExit (some 7)) (Runner.init [] true Option.none)
      = (Option.none, { Runner.init [] true Option.none with
          exitCalls := (Runner.init [] true Option.none).exitCalls ++ [some 7] }) :=
  C5_cooperative_termination true (bodySysExit (some 7))
    (Runner.init [] true Option.none) (Runner.init [] true Option.none) (some 7) rfl

/-- C8: a Runner.run call with a path runs the fragment with the selected
run_func against a separate environment freshly built for that path (not
the session vars), and on every exit path — the run_func result is left
arbitrary, covering normal return and raised failure alike — the resulting
session vars are the old vars updated with all bindings of that path-scoped
environment. -/
theorem C8_path_scoped_merge (reserved : List String) (src : String)
    (code : Frag) (use_eval : Option Bool) (p : String)
    (all_errors_exit store : Bool) (s : RunnerState) :
    (Runner.run reserved src code use_eval (some p) all_errors_exit store s).2.vars
      = envUpdate s.vars
          (Runner.run_func_of use_eval code
            (Runner.build_vars reserved (some p)) s.out).2.1 := by
  simp only [Runner.run, Runner.handling_errors]
  rcases h : Runner.run_func_of use_eval code (Runner.build_vars reserved (some p)) s.out
    with ⟨r, env1, out1⟩
  simp only [h]
  cases r with
  | ok v => cases store <;> simp [Runner.store]
  | error e => cases e <;> cases all_errors_exit <;> simp

/-- Under the well-formedness in roundsEndWith, the communicate/poll loop
consumes every round, collecting all stdout chunks and all stderr chunks in
round order, and finishes with the final poll's exit code. -/
theorem call_output_of_roundsEndWith
    (rds : List (String × String × Option Int)) (rc : Int)
    (h : roundsEndWith rds rc = true) :
    call_output rds
      = (rds.map (fun t => t.1), rds.map (fun t => t.2.1), some rc) := by
  induction rds with
  | nil => simp [roundsEndWith] at h
  | cons x rest ih =>
      obtain ⟨o, e, pl⟩ := x
      cases rest with
      | nil =>
          cases pl with
          | none => simp [roundsEndWith] at h
          | some k =>
              have hk : k = rc := by simpa [roundsEndWith] using h
              subst hk
              simp [call_output]
      | cons y rest2 =>
          cases pl with
          | none =>
              have h2 : roundsEndWith (y :: rest2) rc = true := by
                simpa [roundsEndWith] using h
              have hstep : call_output ((o, e, (Option.none : Option Int)) :: y :: rest2)
                  = (o :: (call_output (y :: rest2)).1,
                     e :: (call_output (y :: rest2)).2.1,
                     (call_output (y :: rest2)).2.2) := rfl
              rw [hstep, ih h2]
              simp
          | some k => simp [roundsEndWith] at h

/-- C6: for a command list naming a nonexistent executable (launch fails at
the OS level), the command executor without raise_errs returns the reserved
sentinel exit code in streaming mode and the empty string in capturing
mode, and with raise_errs it raises CalledProcessError carrying that
sentinel code, in either mode. -/
theorem C6_launch_failure (w : World) (cmd : List String) (hne : cmd ≠ [])
    (hspawn : w.spawn (resolve_cmd w cmd) = Option.none) :
    ( runCmd w cmd true false).2 = some (.ok (.code oserror_retcode))
    ∧ ( runCmd w cmd false false).2 = some (.ok (.output ""))
    ∧ ( runCmd w cmd true true).2
        = some (.error (.calledProcessError oserror_retcode (resolve_cmd w cmd) Option.none))
    ∧ ( runCmd w cmd false true).2
        = some (.error (.calledProcessError oserror_retcode (resolve_cmd w cmd) Option.none)) := by
  cases cmd with
  | nil => exact absurd rfl hne
  | cons c rest => refine ⟨?_, ?_, ?_, ?_⟩ <;> simp [runCmd, hspawn]

/-- A world in which executable resolution is available but finds nothing
and every launch fails with the OS-level error. -/
def worldNoExe : World :=
  { whichAvailable := true
    which := fun _ => Option.none
    spawn := fun _ => Option.none }

/-- Witness for C6 at a concrete nonexistent executable. -/
theorem C6_launch_failure_witness :
    ( runCmd worldNoExe ["prog"] true false).2 = some (.ok (.code oserror_retcode))
    ∧ ( runCmd worldNoExe ["prog"] false false).2 = some (.ok (.output ""))
    ∧ ( runCmd worldNoExe ["prog"] true true).2
        = some (.error (.calledProcessError oserror_retcode
            (resolve_cmd worldNoExe ["prog"]) Option.none))
    ∧ ( runCmd worldNoExe ["prog"] false true).2
        = some (.error (.calledProcessError oserror_retcode
            (resolve_cmd worldNoExe ["prog"]) Option.none)) :=
  C6_launch_failure worldNoExe ["prog"] (by decide) rfl

/-- C7: for a non-empty command whose process launches and exits with code
0, the command executor in capturing mode without raise_errs returns,
without raising, the string joining all decoded stdout chunks and then all
decoded stderr chunks, each stream in invocation order. -/
theorem C7_capture_success (w : World) (cmd : List String) (p : Proc)
    (hne : cmd ≠ [])
    (hspawn : w.spawn (resolve_cmd w cmd) = some p)
    (hterm : roundsEndWith p.rounds 0 = true) :
    ( runCmd w cmd false false).2
      = some (.ok (.output (String.join
          (p.rounds.map (fun t => t.1) ++ p.rounds.map (fun t => t.2.1))))) := by
  cases cmd with
  | nil => exact absurd rfl hne
  | cons c rest =>
      simp [runCmd, hspawn, call_output_of_roundsEndWith p.rounds 0 hterm]

/-- A process producing stdout chunks a then c and stderr chunks b then d,
exiting 0, and a world that launches it for every command. -/
def procEcho : Proc := { rounds := [("a", "b", Option.none), ("c", "d", some 0)] }

/-- A world whose every launch runs procEcho, without which resolution. -/
def worldEcho : World :=
  { whichAvailable := false
    which := fun _ => Option.none
    spawn := fun _ => some procEcho }

/-- Witness for C7 at a concrete two-round process exiting 0. -/
theorem C7_capture_success_witness :
    ( runCmd worldEcho ["echo"] false false).2
      = some (.ok (.output (String.join
          (procEcho.rounds.map (fun t => t.1)
            ++ procEcho.rounds.map (fun t => t.2.1))))) :=
  C7_capture_success worldEcho ["echo"] procEcho (by decide) rfl (by decide)

/-- C10 counterexample: with resolution available but finding nothing, the
caller's command list after the call is the same as before, so the claim
that the list is not the same after the call fails at this input. -/
theorem C10_counterexample :
    worldNoExe.whichAvailable = true
    ∧ ( runCmd worldNoExe ["prog"] true false).1 = ["prog"] :=
  ⟨rfl, rfl⟩

/-- C10 amended: when resolution is available, the command executor mutates
the caller's list in place so that afterwards its first element is the
resolved full path when resolution finds one and is unchanged otherwise;
the list content therefore changes only when resolution finds a path
different from the original first element. -/
theorem C10_resolution_in_place (w : World) (c : String) (rest : List String)
    (show_output raise_errs : Bool) (h : w.whichAvailable = true) :
    ( runCmd w (c :: rest) show_output raise_errs).1 = ((w.which c).getD c) :: rest := by
  simp only [runCmd]
  cases hs : w.spawn (resolve_cmd w (c :: rest)) with
  | none => cases raise_errs <;> cases show_output <;> simp [resolve_cmd, h, hs]
  | some p =>
      rcases hco : call_output p.rounds with ⟨outs, errs, rc⟩
      cases rc with
      | none => simp [resolve_cmd, h, hs, hco]
      | some k =>
          cases raise_errs <;> cases show_output <;>
            simp [resolve_cmd, h, hs, hco] <;>
            split <;> simp [resolve_cmd, h]

/-- Witness for C10 amended: resolution finds nothing, first element kept. -/
theorem C10_resolution_in_place_witness :
    ( runCmd worldNoExe ["prog"] true false).1
      = ((worldNoExe.which "prog").getD "prog") :: [] :=
  C10_resolution_in_place worldNoExe "prog" [] true false rfl

/-- One Session.run invocation: the fragment's source text and semantics
plus the flags Runner.run takes. -/
structure RunCall where
  src : String
  sem : Frag
  use_eval : Option Bool
  path : Option String
  all_errors_exit : Bool
  record : Bool

/-- Perform one recorded-or-not run call. -/
def runOne (reserved : List String) (c : RunCall) (s : RunnerState) :
    Option (Option Value) × RunnerState :=
  Runner.run reserved c.src c.sem c.use_eval c.path c.all_errors_exit c.record s

/-- Perform a sequence of run calls, threading the session state. -/
def runMany (reserved : List String) : List RunCall → RunnerState → RunnerState
  | [], s => s
  | c :: rest, s => runMany reserved rest (runOne reserved c s).2

/-- The source texts the runs of the trace record: those passed with record
set whose execution completed without an exception (Runner.run stores the
line only after the run_func returns). -/
def recordedOf (reserved : List String) : List RunCall → RunnerState → List String
  | [], _ => []
  | c :: rest, s =>
      (if c.record && (runOne reserved c s).1.isSome then [c.src] else [])
        ++ recordedOf reserved rest (runOne reserved c s).2

/-- How one run call changes the transcript: the source line is appended
exactly when the record flag is set and the run body completed. -/
theorem run_stored (reserved : List String) (src : String) (code : Frag)
    (ue : Option Bool) (path : Option String) (aee record : Bool)
    (s : RunnerState) :
    (Runner.run reserved src code ue path aee record s).2.stored
      = s.stored.map (fun l =>
          l ++ (if record && (Runner.run reserved src code ue path aee record s).1.isSome
                then [src] else [])) := by
  simp only [Runner.run, Runner.handling_errors]
  cases path with
  | none =>
      rcases h : Runner.run_func_of ue code s.vars s.out with ⟨r, env1, out1⟩
      simp only [h]
      cases r with
      | ok v => cases record <;> simp [Runner.store]
      | error e => cases e <;> cases aee <;> simp
  | some p =>
      rcases h : Runner.run_func_of ue code (Runner.build_vars reserved (some p)) s.out
        with ⟨r, env1, out1⟩
      simp only [h]
      cases r with
      | ok v => cases record <;> simp [Runner.store]
      | error e => cases e <;> cases aee <;> simp

/-- Transcript accumulation across a trace of run calls. -/
theorem runMany_stored (reserved : List String) (calls : List RunCall) :
    ∀ (s : RunnerState) (l : List String), s.stored = some l →
    (runMany reserved calls s).stored = some (l ++ recordedOf reserved calls s) := by
  induction calls with
  | nil =>
      intro s l h
      simp [runMany, recordedOf, h]
  | cons c rest ih =>
      intro s l h
      have h1 := run_stored reserved c.src c.sem c.use_eval c.path
        c.all_errors_exit c.record s
      have h2 : (runOne reserved c s).2.stored
          = some (l ++ (if c.record && (runOne reserved c s).1.isSome
              then [c.src] else [])) := by
        simp only [runOne]
        rw [h1, h]
        rfl
      simp only [runMany, recordedOf]
      rw [ih _ _ h2]
      simp

/-- C9: for a session created with recording enabled, after any trace of run
calls, was_run_code with get_all returns the newline join of exactly the
fragments the runs recorded, and calling it again right away returns the
same string (idempotent after the collapse). -/
theorem C9_transcript_collapse (reserved : List String) (calls : List RunCall) :
    (Runner.was_run_code true
        (runMany reserved calls (Runner.init reserved true Option.none))).1
      = String.intercalate "\n"
          (recordedOf reserved calls (Runner.init reserved true Option.none))
    ∧ (Runner.was_run_code true
        (Runner.was_run_code true
          (runMany reserved calls (Runner.init reserved true Option.none))).2).1
      = (Runner.was_run_code true
          (runMany reserved calls (Runner.init reserved true Option.none))).1 := by
  have hst : (runMany reserved calls (Runner.init reserved true Option.none)).stored
      = some (recordedOf reserved calls (Runner.init reserved true Option.none)) := by
    have h0 : (Runner.init reserved true Option.none).stored = some [] := rfl
    simpa using runMany_stored reserved calls (Runner.init reserved true Option.none) [] h0
  refine ⟨?_, ?_⟩
  · simp [Runner.was_run_code, hst]
  · simp [Runner.was_run_code, hst, String.intercalate, String.intercalate.go]

end Coconut
